import Mathlib

/-!
Verification of the ARSAA-DIMENSION MVP (src/ARSAA-DIMENSION-mvp.py).

This file shallowly embeds the components of the program that the claims
concern: the JSON extraction/repair routine `JSONProcessor.extract_and_parse_json`
(together with a model of Python's `json.loads` and of the three `re.sub`
repair substitutions), the city-context lookup `GeminiAI._extract_city_context`,
the geocoder result handling `GeocodingService.geocode_address` and
`ARSAADimension.process_geolocation`, the two news producers and the
orchestrator's selection policy, and the error behaviour of
`GeminiAI.call_gemini_api`.

Network I/O is modelled by passing the (parsed) response of each HTTP call as
an explicit argument; exceptions raised and caught inside the Python code are
modelled with `Option`/`Except`.
-/

set_option maxRecDepth 8000

/-- Model of a Python value produced by `json.loads`: JSON null, booleans,
ints, floats, strings, lists and (insertion-ordered) dicts.  Floats are
modelled as exact rationals (Python would round the decimal literal to an IEEE
double); the nonstandard literals `NaN`/`Infinity`/`-Infinity` that Python's
decoder additionally accepts are not modelled, and dict equality here is
insertion-order-sensitive whereas Python's is not — no claim depends on either
point. -/
inductive PyJson where
| null : PyJson
| bool (b : Bool) : PyJson
| int (n : Int) : PyJson
| float (q : ℚ) : PyJson
| str (s : String) : PyJson
| arr (xs : List PyJson) : PyJson
| obj (kvs : List (String × PyJson)) : PyJson

/-- JSON inter-token whitespace, exactly the characters skipped by Python's
`json` decoder (`[ \t\n\r]`). -/
def isJsonWs (c : Char) : Bool :=
  decide (c = ' ' ∨ c = '\t' ∨ c = '\n' ∨ c = '\r')

def skipWs (l : List Char) : List Char := l.dropWhile isJsonWs

/-- Digit list to number, most significant first. -/
def digitsToNat (ds : List Char) : Nat :=
  ds.foldl (fun n c => n * 10 + (c.toNat - '0'.toNat)) 0

def hexVal (c : Char) : Option Nat :=
  if '0' ≤ c ∧ c ≤ '9' then some (c.toNat - '0'.toNat)
  else if 'a' ≤ c ∧ c ≤ 'f' then some (c.toNat - 'a'.toNat + 10)
  else if 'A' ≤ c ∧ c ≤ 'F' then some (c.toNat - 'A'.toNat + 10)
  else none

def hex4 (a b c d : Char) : Option Nat :=
  match hexVal a, hexVal b, hexVal c, hexVal d with
  | some x, some y, some z, some w => some (((x * 16 + y) * 16 + z) * 16 + w)
  | _, _, _, _ => none

/-- The single-character string escapes accepted by Python's `json` decoder. -/
def escChar (e : Char) : Option Char :=
  if e = '"' then some '"'
  else if e = '\\' then some '\\'
  else if e = '/' then some '/'
  else if e = 'b' then some '\x08'
  else if e = 'f' then some '\x0c'
  else if e = 'n' then some '\n'
  else if e = 'r' then some '\r'
  else if e = 't' then some '\t'
  else none

/-- Build the dict entry list the way Python's decoder does (`dict(pairs)`):
a repeated key keeps its first position but takes the latest value. -/
def insertKV (kvs : List (String × PyJson)) (k : String) (v : PyJson) :
    List (String × PyJson) :=
  if kvs.any (fun p => p.1 == k) then
    kvs.map (fun p => if p.1 = k then (k, v) else p)
  else kvs ++ [(k, v)]

/-- JSON number per Python's `NUMBER_RE` (`-?(0|[1-9]\d*)(\.\d+)?([eE][+-]?\d+)?`,
matched as a prefix): returns the numeric value and the unconsumed rest.
An integer literal yields `PyJson.int`, otherwise `PyJson.float`. -/
def parseNumTail (neg : Bool) (ip : Nat) (r : List Char) :
    Option (PyJson × List Char) :=
  let fr := match r with
    | '.' :: rr =>
      let ds := rr.takeWhile Char.isDigit
      if ds = [] then ([], r) else (ds, rr.dropWhile Char.isDigit)
    | _ => ([], r)
  let fracDs := fr.1
  let r2 := fr.2
  let ex := match r2 with
    | e :: rr =>
      if e = 'e' ∨ e = 'E' then
        match rr with
        | '+' :: rr2 =>
          let ds := rr2.takeWhile Char.isDigit
          if ds = [] then (false, false, [], r2)
          else (true, false, ds, rr2.dropWhile Char.isDigit)
        | '-' :: rr2 =>
          let ds := rr2.takeWhile Char.isDigit
          if ds = [] then (false, false, [], r2)
          else (true, true, ds, rr2.dropWhile Char.isDigit)
        | _ =>
          let ds := rr.takeWhile Char.isDigit
          if ds = [] then (false, false, [], r2)
          else (true, false, ds, rr.dropWhile Char.isDigit)
      else (false, false, ([] : List Char), r2)
    | [] => (false, false, ([] : List Char), r2)
  let hasExp := ex.1
  let expNeg := ex.2.1
  let expDs := ex.2.2.1
  let r3 := ex.2.2.2
  if fracDs = [] ∧ hasExp = false then
    some (.int (if neg then -(ip : Int) else (ip : Int)), r3)
  else
    let base : ℚ := (ip : ℚ) + (digitsToNat fracDs : ℚ) / ((10 : ℚ) ^ fracDs.length)
    let e : Int := if expNeg then -(digitsToNat expDs : Int) else (digitsToNat expDs : Int)
    let mag : ℚ := base * (10 : ℚ) ^ e
    some (.float (if neg then -mag else mag), r3)

def parseNum (l : List Char) : Option (PyJson × List Char) :=
  let sg := match l with
    | '-' :: r => (true, r)
    | _ => (false, l)
  let neg := sg.1
  match sg.2 with
  | '0' :: r1 => parseNumTail neg 0 r1
  | c :: _ =>
    if c.isDigit then
      parseNumTail neg (digitsToNat (sg.2.takeWhile Char.isDigit))
        (sg.2.dropWhile Char.isDigit)
    else none
  | [] => none

mutual

/-- One JSON value starting at the head of the input (whitespace already
skipped), as scanned by Python's `json` decoder; returns the value and the
unconsumed rest.  The fuel argument only bounds recursion depth; `json_loads`
supplies more than the scanner can ever use. -/
def parseValue : Nat → List Char → Option (PyJson × List Char)
| 0, _ => none
| _ + 1, [] => none
| fuel + 1, '{' :: rest =>
    match skipWs rest with
    | '}' :: r => some (.obj [], r)
    | l1 => parseMembers fuel l1 []
| fuel + 1, '[' :: rest =>
    match skipWs rest with
    | ']' :: r => some (.arr [], r)
    | l1 => parseElems fuel l1 []
| fuel + 1, '"' :: rest =>
    match parseStr fuel rest [] with
    | some (s, r) => some (.str s, r)
    | none => none
| _ + 1, 't' :: 'r' :: 'u' :: 'e' :: rest => some (.bool true, rest)
| _ + 1, 'f' :: 'a' :: 'l' :: 's' :: 'e' :: rest => some (.bool false, rest)
| _ + 1, 'n' :: 'u' :: 'l' :: 'l' :: rest => some (.null, rest)
| _ + 1, c :: rest =>
    if c = '-' ∨ c.isDigit then parseNum (c :: rest) else none

/-- Object members: expects a `"`-opened key, then `:`, a value, and either
`,` (next member, which must again start with `"` — this is what makes a
trailing comma before `}` invalid) or `}`. -/
def parseMembers : Nat → List Char → List (String × PyJson) →
    Option (PyJson × List Char)
| 0, _, _ => none
| fuel + 1, '"' :: rest, acc =>
    match parseStr fuel rest [] with
    | some (k, r1) =>
      match skipWs r1 with
      | ':' :: r3 =>
        match parseValue fuel (skipWs r3) with
        | some (v, r4) =>
          match skipWs r4 with
          | ',' :: r6 => parseMembers fuel (skipWs r6) (insertKV acc k v)
          | '}' :: r6 => some (.obj (insertKV acc k v), r6)
          | _ => none
        | none => none
      | _ => none
    | none => none
| _ + 1, _, _ => none

/-- Array elements: a value followed by `,` (next element — so a trailing
comma before `]` is invalid) or `]`. -/
def parseElems : Nat → List Char → List PyJson → Option (PyJson × List Char)
| 0, _, _ => none
| fuel + 1, l, acc =>
    match parseValue fuel l with
    | some (v, r1) =>
      match skipWs r1 with
      | ',' :: r3 => parseElems fuel (skipWs r3) (acc ++ [v])
      | ']' :: r3 => some (.arr (acc ++ [v]), r3)
      | _ => none
    | none => none

/-- String body after the opening quote, in Python's strict mode: raw control
characters (code < 0x20) are rejected, escapes are `\" \\ \/ \b \f \n \r \t`
and `\uXXXX` with surrogate-pair combination.  (A lone surrogate, which Python
would keep in the str, falls outside Lean's `Char` and maps to `'\0'` via
`Char.ofNat`; no claim involves one.) -/
def parseStr : Nat → List Char → List Char → Option (String × List Char)
| 0, _, _ => none
| _ + 1, [], _ => none
| fuel + 1, '\\' :: 'u' :: a :: b :: c :: d :: rest, acc =>
    match hex4 a b c d with
    | none => none
    | some n =>
      if 0xD800 ≤ n ∧ n < 0xDC00 then
        match rest with
        | '\\' :: 'u' :: a2 :: b2 :: c2 :: d2 :: rest2 =>
          match hex4 a2 b2 c2 d2 with
          | some m =>
            if 0xDC00 ≤ m ∧ m < 0xE000 then
              parseStr fuel rest2
                (acc ++ [Char.ofNat (0x10000 + (n - 0xD800) * 0x400 + (m - 0xDC00))])
            else parseStr fuel rest (acc ++ [Char.ofNat n])
          | none => parseStr fuel rest (acc ++ [Char.ofNat n])
        | _ => parseStr fuel rest (acc ++ [Char.ofNat n])
      else parseStr fuel rest (acc ++ [Char.ofNat n])
| fuel + 1, '\\' :: e :: rest, acc =>
    match escChar e with
    | some c => parseStr fuel rest (acc ++ [c])
    | none => none
| _ + 1, '"' :: rest, acc => some (String.mk acc, rest)
| fuel + 1, c :: rest, acc =>
    if c.toNat < 32 then none else parseStr fuel rest (acc ++ [c])

end

/-- Model of Python `json.loads`: skip whitespace, scan exactly one value,
and require that only whitespace follows (otherwise "Extra data").  A
`json.JSONDecodeError` is modelled as `none`.  Each fuel decrement consumes at
least one input character and at most one extra decrement occurs per value,
member, element and string, so `4 * length + 8` can never be exhausted. -/
def json_loads (l : List Char) : Option PyJson :=
  match parseValue (4 * l.length + 8) (skipWs l) with
  | some (v, rest) => if skipWs rest = [] then some v else none
  | none => none

/-- The characters matched by `\s` in Python's `re` module, restricted to the
ASCII range (`[ \t\n\r\v\f]`; further Unicode space code points exist but are
irrelevant here). -/
def isReWs (c : Char) : Bool :=
  decide (c = ' ' ∨ c = '\t' ∨ c = '\n' ∨ c = '\r' ∨ c = '\x0b' ∨ c = '\x0c')

/-- Scanner for `re.sub(r',\s*C', 'C', ·)` with `C` the closing character
(`}` or `]`): `pending` holds a withheld comma plus following whitespace; on
reaching `C` the pending run is dropped (the replacement is just `C`), while
any other character flushes it.  Matches are non-overlapping and scanning
resumes after each match, exactly as `re.sub` does. -/
def subCloseGo (close : Char) (pending : List Char) : List Char → List Char
| [] => pending
| c :: rest =>
  if pending.isEmpty then
    if c = ',' then subCloseGo close [','] rest
    else c :: subCloseGo close [] rest
  else
    if isReWs c then subCloseGo close (pending ++ [c]) rest
    else if c = close then close :: subCloseGo close [] rest
    else if c = ',' then pending ++ subCloseGo close [','] rest
    else pending ++ c :: subCloseGo close [] rest

/-- `re.sub(r',\s*}', '}', ·)` (for `close = '}'`) and
`re.sub(r',\s*]', ']', ·)` (for `close = ']'`). -/
def subCommaClose (close : Char) (l : List Char) : List Char :=
  subCloseGo close [] l

/-- Scanner for `re.sub(r'"\s*\n\s*"', '" "', ·)`: a quote followed by a
whitespace run containing at least one newline and then another quote is
replaced by `" "`; a quote-whitespace-quote run without a newline is no
match, but its closing quote may open the next candidate window. -/
def subQNGo (pending : List Char) (sawNl : Bool) : List Char → List Char
| [] => pending
| c :: rest =>
  if pending.isEmpty then
    if c = '"' then subQNGo ['"'] false rest
    else c :: subQNGo [] false rest
  else
    if c = '"' then
      if sawNl then '"' :: ' ' :: '"' :: subQNGo [] false rest
      else pending ++ subQNGo ['"'] false rest
    else if isReWs c then
      subQNGo (pending ++ [c]) (if c = '\n' then true else sawNl) rest
    else pending ++ c :: subQNGo [] false rest

/-- `re.sub(r'"\s*\n\s*"', '" "', ·)`. -/
def subQuoteNl (l : List Char) : List Char := subQNGo [] false l

/-- Decides that the pattern `,\s*close` matches nowhere in the input (when
started with the given `active` state: `true` means a comma and possibly
whitespace were just seen).  Mirrors the state machine of `subCloseGo`. -/
def noCCGo (close : Char) (active : Bool) : List Char → Bool
| [] => true
| c :: rest =>
  if active then
    if isReWs c then noCCGo close true rest
    else if c = close then false
    else noCCGo close (decide (c = ',')) rest
  else noCCGo close (decide (c = ',')) rest

/-- Decides that the pattern `"\s*\n\s*"` matches nowhere in the input.
Mirrors the state machine of `subQNGo`. -/
def noQNGo (active sawNl : Bool) : List Char → Bool
| [] => true
| c :: rest =>
  if active then
    if c = '"' then
      if sawNl then false else noQNGo true false rest
    else if isReWs c then noQNGo true (if c = '\n' then true else sawNl) rest
    else noQNGo false false rest
  else noQNGo (decide (c = '"')) false rest

/-- The candidate substring of `JSONProcessor.extract_and_parse_json`
(lines 378-388): `None` if the text is empty or has no `{` (or no `}` making
`rfind` return -1); otherwise the span `text[start_idx:end_idx + 1]` from the
first `{` to the last `}` (empty when the last `}` precedes the first `{`,
matching Python's clamping slice). -/
def jsonCandidate (text : List Char) : Option (List Char) :=
  if text = [] ∨ text.contains '{' = false then none
  else
    match text.findIdx? (fun c => c = '{'),
          (text.reverse.findIdx? (fun c => c = '}')).map (fun i => text.length - 1 - i) with
    | some s, some e => some ((text.drop s).take (e + 1 - s))
    | _, _ => none

/-- `JSONProcessor.extract_and_parse_json` (lines 375-411): locate the span
from the first `{` to the last `}`, try `json.loads`; on failure apply the
three `re.sub` repairs in order and try once more; `None` on failure.  All
exceptions the Python code can meet here (`json.JSONDecodeError`) are caught,
so the model is a total function into `Option`. -/
def extract_and_parse_json (text : String) : Option PyJson :=
  match jsonCandidate text.data with
  | none => none
  | some cand =>
    match json_loads cand with
    | some v => some v
    | none =>
      match json_loads (subQuoteNl (subCommaClose ']' (subCommaClose '}' cand))) with
      | some v => some v
      | none => none

/-- `needle.isPrefixOf hay` written out for `List Char`. -/
def startsWithSeq : List Char → List Char → Bool
| [], _ => true
| _ :: _, [] => false
| c :: cs, h :: hs => if c = h then startsWithSeq cs hs else false

/-- Python's substring operator `needle in hay`. -/
def seqIn (needle : List Char) : List Char → Bool
| [] => decide (needle = [])
| h :: hs => if startsWithSeq needle (h :: hs) then true else seqIn needle hs

/-- Python `needle in hay` on strings. -/
def pyIn (needle hay : String) : Bool := seqIn needle.data hay.data

/-- Python `str.lower()` (ASCII case folding; the inputs involved here are
ASCII, where `Char.toLower` agrees with Python). -/
def pyLower (s : String) : String := String.mk (s.data.map Char.toLower)

/-- `GeminiAI._extract_city_context` (lines 307-325): lower-case the location
name and return the description of the first `city_mapping` key that occurs
as a substring, in the dict's insertion order (`jakarta`, `tangerang selatan`,
`tangerang`, `bekasi`, `bogor`, `depok`); otherwise the generic Jabodetabek
description. -/
def extract_city_context (location_name : String) : String :=
  let location_lower := pyLower location_name
  if pyIn "jakarta" location_lower then
    "DKI Jakarta - Pusat bisnis dan pemerintahan"
  else if pyIn "tangerang selatan" location_lower then
    "Tangerang Selatan - Area berkembang dengan infrastruktur modern"
  else if pyIn "tangerang" location_lower then
    "Tangerang - Kawasan industri dan residential"
  else if pyIn "bekasi" location_lower then
    "Bekasi - Buffer zone Jakarta dengan pertumbuhan pesat"
  else if pyIn "bogor" location_lower then
    "Bogor - Area sejuk dengan akses ke Jakarta"
  else if pyIn "depok" location_lower then
    "Depok - Kota satelit dengan banyak universitas"
  else
    "Area Jabodetabek - Kawasan metropolitan Jakarta"

/-- One candidate of the Nominatim response array, with the fields the code
reads.  Absent keys are `none` (the code substitutes defaults via `.get`);
`lat`/`lon` are modelled as already-converted numbers and `osm_id` as a
string. -/
structure NominatimPlace where
  display_name : Option String
  lat : Option ℚ
  lon : Option ℚ
  address : Option (List (String × String))
  osm_id : Option String
deriving DecidableEq

/-- The geo-result dict.  The genuine geocoder result carries
`address_components`/`osm_id`; the orchestrator fallback dict does not, which
the `Option` fields record. -/
structure GeoResult where
  display_name : String
  latitude : ℚ
  longitude : ℚ
  address_components : Option (List (String × String))
  osm_id : Option String
  confidence : Nat
deriving DecidableEq

/-- `GeocodingService.geocode_address` (lines 110-152) after the HTTP call:
`resp = none` models any request/HTTP/parse failure (the `except` returns
`None`); an empty candidate list returns `None`; otherwise the FIRST
candidate `data[0]` is taken, with `confidence = len(data)`. -/
def geocode_address (resp : Option (List NominatimPlace)) : Option GeoResult :=
  match resp with
  | none => none
  | some data =>
    match data with
    | [] => none
    | best :: _ =>
      some { display_name := best.display_name.getD ""
             latitude := best.lat.getD 0
             longitude := best.lon.getD 0
             address_components := some (best.address.getD [])
             osm_id := some (best.osm_id.getD "")
             confidence := data.length }

/-- `ARSAADimension.process_geolocation` (lines 471-490): return the geocoder
result if any, else the fixed fallback dict (Jakarta-area centroid, confidence
0, synthesized display name). -/
def process_geolocation (address : String) (resp : Option (List NominatimPlace)) :
    GeoResult :=
  match geocode_address resp with
  | some geo_data => geo_data
  | none =>
    { display_name := "Area " ++ address ++ " (estimasi)"
      latitude := -6.2
      longitude := 106.8
      address_components := none
      osm_id := none
      confidence := 0 }

/-- The unified article record both news producers emit (title, url,
published timestamp string, source name, description). -/
structure NewsArticle where
  title : String
  url : String
  published : String
  source : String
  description : String
deriving DecidableEq

/-- Python string slicing `s[:n]`. -/
def pyTrunc (s : String) (n : Nat) : String := String.mk (s.data.take n)

/-- A raw NewsAPI article object; fields are `none` when the key is absent
(`.get` then substitutes the default).  `sourceName` stands for
`article.get("source", Nat).get("name", "")`. -/
structure RawApiArticle where
  title : Option String
  url : Option String
  publishedAt : Option String
  sourceName : Option String
  description : Option String
deriving DecidableEq

/-- The NewsAPI HTTP outcome: a network/HTTP error (caught, soft-fails) or a
parsed payload with its `status`, optional `message`, and `articles`. -/
inductive NewsApiHttp where
| netError : NewsApiHttp
| payload (status : Option String) (message : Option String)
    (articles : List RawApiArticle) : NewsApiHttp
deriving DecidableEq

def mkApiArticle (a : RawApiArticle) : NewsArticle :=
  { title := a.title.getD ""
    url := a.url.getD ""
    published := a.publishedAt.getD ""
    source := a.sourceName.getD ""
    description := pyTrunc (a.description.getD "") 200 }

/-- `NewsService.fetch_newsapi_data` (lines 158-196): empty list when no API
key is configured; empty on network error or an `"error"` status payload;
otherwise one `NewsArticle` per raw article, description truncated to 200
characters.  (The `city` argument only alters the outgoing query, which the
`resp` oracle already stands for.) -/
def fetch_newsapi_data (key : Option String) (resp : NewsApiHttp) : List NewsArticle :=
  match key with
  | none => []
  | some _ =>
    match resp with
    | .netError => []
    | .payload status _ articles =>
      if status = some "error" then []
      else articles.map mkApiArticle

/-- A raw feed entry (`.get` fields as for NewsAPI). -/
structure RawFeedEntry where
  title : Option String
  link : Option String
  published : Option String
  summary : Option String
deriving DecidableEq

/-- One feed fetch outcome: a raised-and-caught per-feed error (the feed is
skipped) or a parsed feed with its feed-level title and entries. -/
inductive FeedResult where
| err : FeedResult
| ok (feedTitle : Option String) (entries : List RawFeedEntry) : FeedResult
deriving DecidableEq

def mkRssArticle (feedTitle : Option String) (e : RawFeedEntry) : NewsArticle :=
  { title := e.title.getD ""
    url := e.link.getD ""
    published := e.published.getD ""
    source := feedTitle.getD "RSS Feed"
    description := pyTrunc (e.summary.getD "") 200 }

/-- `NewsService.fetch_rss_feeds` (lines 198-223): iterate the configured
feeds, keeping at most `limit_per_feed` entries of each and skipping failing
feeds; descriptions truncated to 200 characters (`(entry.get("summary", "")
or "")[:200]` — the `or ""` guards a `None` summary, which the `Option`
already covers). -/
def fetch_rss_feeds (feeds : List FeedResult) (limit_per_feed : Nat) :
    List NewsArticle :=
  feeds.foldl
    (fun all_articles f =>
      match f with
      | .err => all_articles
      | .ok t es => all_articles ++ (es.take limit_per_feed).map (mkRssArticle t))
    []

/-- Tags recording which news producer the orchestrator actually invoked. -/
inductive NewsProducer where
| newsapi : NewsProducer
| rss : NewsProducer
deriving DecidableEq

/-- The news-selection part of `ARSAADimension.gather_market_intelligence`
(lines 516-529): try NewsAPI only when a key is configured; fall back to the
RSS producer exactly when the list so far is empty.  The second component
instruments the model with the producers attempted, in order.  (The city
keyword extraction preceding this only parameterizes the NewsAPI query and is
not modelled.) -/
def gather_market_intelligence (key : Option String) (apiResp : NewsApiHttp)
    (feeds : List FeedResult) : List NewsArticle × List NewsProducer :=
  let step1 :=
    if key.isSome then (fetch_newsapi_data key apiResp, [NewsProducer.newsapi])
    else ([], ([] : List NewsProducer))
  if step1.1 = [] then (fetch_rss_feeds feeds 3, step1.2 ++ [NewsProducer.rss])
  else step1

/-- Python exceptions relevant to `call_gemini_api`. -/
inductive PyExc where
| runtimeError : PyExc
| keyError : PyExc
| indexError : PyExc
| typeError : PyExc
deriving DecidableEq

/-- Outcome of a Python call: either an uncaught exception propagates, or a
value (here `Option` of the extracted response text) is returned. -/
inductive CallResult where
| raised (e : PyExc) : CallResult
| returned (v : Option PyJson) : CallResult

/-- The Gemini HTTP outcome: `requests` exception (network/HTTP error, caught)
or a parsed JSON body. -/
inductive AiHttp where
| netError : AiHttp
| ok (body : PyJson) : AiHttp

/-- Python `"error" in data`: key membership for dicts, element membership
for lists, substring for strings, `TypeError` otherwise. -/
def pyContainsStr (data : PyJson) (k : String) : Except PyExc Bool :=
  match data with
  | .obj kvs => .ok (kvs.any (fun p => p.1 == k))
  | .arr xs => .ok (xs.any (fun x => match x with
      | .str s => s == k
      | _ => false))
  | .str s => .ok (pyIn k s)
  | _ => .error .typeError

/-- Python `d[k]` with a string key: dict lookup (`KeyError` when absent),
`TypeError` on any non-dict. -/
def pyGetStr (d : PyJson) (k : String) : Except PyExc PyJson :=
  match d with
  | .obj kvs =>
    match kvs.find? (fun p => p.1 == k) with
    | some p => .ok p.2
    | none => .error .keyError
  | _ => .error .typeError

/-- Python `d[i]` with an int index: list/str indexing (`IndexError` out of
range), `KeyError` on a (string-keyed) parsed dict, `TypeError` otherwise. -/
def pyGetIdx (d : PyJson) (i : Nat) : Except PyExc PyJson :=
  match d with
  | .arr xs =>
    match xs.get? i with
    | some v => .ok v
    | none => .error .indexError
  | .str s =>
    match s.data.get? i with
    | some c => .ok (.str (String.mk [c]))
    | none => .error .indexError
  | .obj _ => .error .keyError
  | _ => .error .typeError

/-- `data["candidates"][0]["content"]["parts"][0]["text"]` (line 362), with
Python's exception behaviour at every step. -/
def extractText (data : PyJson) : Except PyExc PyJson := do
  let a ← pyGetStr data "candidates"
  let b ← pyGetIdx a 0
  let c ← pyGetStr b "content"
  let d ← pyGetStr c "parts"
  let e ← pyGetIdx d 0
  pyGetStr e "text"

/-- `GeminiAI.call_gemini_api` (lines 327-369): raises `RuntimeError` when no
key is configured (line 331); with a key, returns `None` on a caught
`requests` exception, on a payload containing `"error"`, or when the response
field chain raises `KeyError`/`IndexError`; any other exception (notably
`TypeError` from an unexpectedly-shaped field) propagates. -/
def call_gemini_api (key : Option String) (http : AiHttp) : CallResult :=
  match key with
  | none => .raised .runtimeError
  | some _ =>
    match http with
    | .netError => .returned none
    | .ok data =>
      match pyContainsStr data "error" with
      | .error e => .raised e
      | .ok true => .returned none
      | .ok false =>
        match extractText data with
        | .ok v => .returned (some v)
        | .error .keyError => .returned none
        | .error .indexError => .returned none
        | .error e => .raised e

theorem subCloseGo_cons (close : Char) (pending : List Char) (c : Char) (rest : List Char) :
    subCloseGo close pending (c :: rest) =
      if pending.isEmpty then
        if c = ',' then subCloseGo close [','] rest
        else c :: subCloseGo close [] rest
      else
        if isReWs c then subCloseGo close (pending ++ [c]) rest
        else if c = close then close :: subCloseGo close [] rest
        else if c = ',' then pending ++ subCloseGo close [','] rest
        else pending ++ c :: subCloseGo close [] rest := rfl

theorem noCCGo_cons (close : Char) (active : Bool) (c : Char) (rest : List Char) :
    noCCGo close active (c :: rest) =
      if active then
        if isReWs c then noCCGo close true rest
        else if c = close then false
        else noCCGo close (decide (c = ',')) rest
      else noCCGo close (decide (c = ',')) rest := rfl

theorem subQNGo_cons (pending : List Char) (sawNl : Bool) (c : Char) (rest : List Char) :
    subQNGo pending sawNl (c :: rest) =
      if pending.isEmpty then
        if c = '"' then subQNGo ['"'] false rest
        else c :: subQNGo [] false rest
      else
        if c = '"' then
          if sawNl then '"' :: ' ' :: '"' :: subQNGo [] false rest
          else pending ++ subQNGo ['"'] false rest
        else if isReWs c then
          subQNGo (pending ++ [c]) (if c = '\n' then true else sawNl) rest
        else pending ++ c :: subQNGo [] false rest := rfl

theorem noQNGo_cons (active sawNl : Bool) (c : Char) (rest : List Char) :
    noQNGo active sawNl (c :: rest) =
      if active then
        if c = '"' then
          if sawNl then false else noQNGo true false rest
        else if isReWs c then noQNGo true (if c = '\n' then true else sawNl) rest
        else noQNGo false false rest
      else noQNGo (decide (c = '"')) false rest := rfl

/-- When the pattern `,\s*close` matches nowhere, the substitution is the
identity (the withheld `pending` run is flushed verbatim). -/
theorem subCloseGo_id (close : Char) :
    ∀ (l pending : List Char), noCCGo close (!pending.isEmpty) l = true →
      subCloseGo close pending l = pending ++ l := by
  intro l
  induction l with
  | nil => intro pending _; simp [subCloseGo]
  | cons c rest ih =>
    intro pending h
    rw [noCCGo_cons] at h
    rw [subCloseGo_cons]
    cases pending with
    | nil =>
      have h' : noCCGo close (decide (c = ',')) rest = true := by simpa using h
      by_cases hc : c = ','
      · subst hc
        have hi := ih [','] (by simpa using h')
        simp [hi]
      · have hi := ih [] (by simpa [hc] using h')
        simp [hc, hi]
    | cons p ps =>
      by_cases hws : isReWs c
      · have h' : noCCGo close true rest = true := by simpa [hws] using h
        have hi := ih (p :: (ps ++ [c])) (by simpa using h')
        simp [hws]
        rw [hi]
        simp
      · by_cases hcl : c = close
        · subst hcl
          simp [hws] at h
        · by_cases hc : c = ','
          · subst hc
            have h' : noCCGo close true rest = true := by simpa [hws, hcl] using h
            have hi := ih [','] (by simpa using h')
            simp [hws, hcl, hi]
          · have h' : noCCGo close false rest = true := by simpa [hws, hcl, hc] using h
            have hi := ih [] (by simpa using h')
            simp [hws, hcl, hc, hi]

/-- Inside an active candidate (nonempty `pending`), a whitespace run followed
by the closing character completes the match: the pending run is dropped. -/
theorem subCloseGo_ws_close (close : Char) (hcl : isReWs close = false) :
    ∀ (W y pending : List Char), pending ≠ [] → W.all isReWs = true →
      subCloseGo close pending (W ++ close :: y) = close :: subCloseGo close [] y := by
  intro W
  induction W with
  | nil =>
    intro y pending hp _
    cases pending with
    | nil => exact absurd rfl hp
    | cons p ps =>
      rw [List.nil_append, subCloseGo_cons]
      simp [hcl]
  | cons w W ihW =>
    intro y pending hp hall
    have hw : isReWs w = true := by
      simp only [List.all_cons, Bool.and_eq_true] at hall
      exact hall.1
    have hW : W.all isReWs = true := by
      simp only [List.all_cons, Bool.and_eq_true] at hall
      exact hall.2
    cases pending with
    | nil => exact absurd rfl hp
    | cons p ps =>
      rw [List.cons_append, subCloseGo_cons]
      simp [hw]
      exact ihW y (p :: (ps ++ [w])) (by simp) hW

/-- Main lemma on the comma-close substitution: on `x ++ "," ++ W ++ close ++ y`
where the pattern matches nowhere within `x` (in context) and `W` is
whitespace, exactly the trailing-comma match is replaced and scanning
continues in `y`. -/
theorem subCloseGo_trailing (close : Char) (hcl : isReWs close = false)
    (hcc : close ≠ ',') :
    ∀ (x pending W y : List Char),
      noCCGo close (!pending.isEmpty) (x ++ [',']) = true →
      W.all isReWs = true →
      subCloseGo close pending (x ++ ',' :: (W ++ close :: y)) =
        pending ++ x ++ close :: subCloseGo close [] y := by
  intro x
  induction x with
  | nil =>
    intro pending W y h hW
    have hp := subCloseGo_ws_close close hcl W y [','] (by simp) hW
    have h2 : ¬ (',' = close) := fun hh => hcc hh.symm
    cases pending with
    | nil =>
      rw [List.nil_append, subCloseGo_cons]
      simp [hp]
    | cons p ps =>
      rw [List.nil_append, subCloseGo_cons]
      simp [isReWs, h2, hp]
  | cons a x' ihx =>
    intro pending W y h hW
    rw [List.cons_append, subCloseGo_cons]
    rw [List.cons_append, noCCGo_cons] at h
    cases pending with
    | nil =>
      have h' : noCCGo close (decide (a = ',')) (x' ++ [',']) = true := by
        simpa using h
      by_cases ha : a = ','
      · subst ha
        have hi := ihx [','] W y (by simpa using h') hW
        simp
        rw [hi]
        simp
      · have hi := ihx [] W y (by simpa [ha] using h') hW
        simp [ha]
        rw [hi]
        simp
    | cons p ps =>
      by_cases hws : isReWs a
      · have h' : noCCGo close true (x' ++ [',']) = true := by simpa [hws] using h
        have hi := ihx (p :: (ps ++ [a])) W y (by simpa using h') hW
        simp [hws]
        rw [hi]
        simp
      · by_cases hacl : a = close
        · subst hacl
          simp [hws] at h
        · by_cases ha : a = ','
          · subst ha
            have h' : noCCGo close true (x' ++ [',']) = true := by
              simpa [hws, hacl] using h
            have hi := ihx [','] W y (by simpa using h') hW
            simp [hws, hacl]
            rw [hi]
            simp
          · have h' : noCCGo close false (x' ++ [',']) = true := by
              simpa [hws, hacl, ha] using h
            have hi := ihx [] W y (by simpa using h') hW
            simp [hws, hacl, ha]
            rw [hi]
            simp

/-- When the pattern `"\s*\n\s*"` matches nowhere, the substitution is the
identity. -/
theorem subQNGo_id :
    ∀ (l pending : List Char) (sawNl : Bool),
      noQNGo (!pending.isEmpty) sawNl l = true →
      subQNGo pending sawNl l = pending ++ l := by
  intro l
  induction l with
  | nil => intro pending sawNl _; simp [subQNGo]
  | cons c rest ih =>
    intro pending sawNl h
    rw [noQNGo_cons] at h
    rw [subQNGo_cons]
    cases pending with
    | nil =>
      have h' : noQNGo (decide (c = '"')) false rest = true := by simpa using h
      by_cases hq : c = '"'
      · subst hq
        have hi := ih ['"'] false (by simpa using h')
        simp [hi]
      · have hi := ih [] false (by simpa [hq] using h')
        simp [hq, hi]
    | cons p ps =>
      by_cases hq : c = '"'
      · subst hq
        by_cases hn : sawNl
        · simp [hn] at h
        · have h' : noQNGo true false rest = true := by simpa [hn] using h
          have hi := ih ['"'] false (by simpa using h')
          simp [hn]
          rw [hi]
          simp
      · by_cases hws : isReWs c
        · have h' : noQNGo true (decide (c = '\n') || sawNl) rest = true := by
            simpa [hq, hws] using h
          have hi := ih (p :: (ps ++ [c])) (decide (c = '\n') || sawNl)
            (by simpa using h')
          simp [hq, hws]
          rw [hi]
          simp
        · have h' : noQNGo false false rest = true := by simpa [hq, hws] using h
          have hi := ih [] false (by simpa using h')
          simp [hq, hws]
          rw [hi]
          simp

/-- C1: for every non-empty input text containing exactly one syntactically
valid JSON object possibly wrapped in prose — i.e. whose span from the first
`{` to the last `}` parses —, `extract_and_parse_json` returns that object
unchanged in value. -/
theorem extract_embedded_json_happy_path
    (text : String) (cand : List Char) (v : PyJson)
    (hc : jsonCandidate text.data = some cand)
    (hp : json_loads cand = some v) :
    extract_and_parse_json text = some v := by
  unfold extract_and_parse_json
  rw [hc]
  simp only [hp]

theorem extract_embedded_json_happy_path_witness :
    extract_and_parse_json "Result: \x7b\"a\": 1\x7d ok" =
      some (PyJson.obj [("a", PyJson.int 1)]) :=
  extract_embedded_json_happy_path "Result: \x7b\"a\": 1\x7d ok"
    ("\x7b\"a\": 1\x7d".data) (PyJson.obj [("a", PyJson.int 1)]) (by decide) rfl

/-- C3: on an empty text or a text with no `{`, the extractor returns `None`;
being a total function into `Option`, the model also witnesses that no
exception escapes (every exception path in the source is caught). -/
theorem extract_none_without_brace
    (text : String) (h : text = "" ∨ text.data.contains '{' = false) :
    extract_and_parse_json text = none := by
  have hc : jsonCandidate text.data = none := by
    unfold jsonCandidate
    rcases h with h | h
    · subst h
      rfl
    · rw [if_pos (Or.inr h)]
  unfold extract_and_parse_json
  rw [hc]

theorem extract_none_without_brace_witness :
    extract_and_parse_json "no json here" = none :=
  extract_none_without_brace "no json here" (Or.inr (by decide))

/-- C10: the extractor is total — on every string it returns `none` or a
parsed value (never an exception; the only raising operation in its body,
`json.loads`, is wrapped in try/except); in particular it returns `none` both
when the last `}` precedes the first `{` (empty slice) and when a `{` has no
`}` at all (`rfind` returns -1). -/
theorem extract_total_function :
    (∀ text : String,
        extract_and_parse_json text = none ∨
          ∃ v, extract_and_parse_json text = some v)
    ∧ extract_and_parse_json "\x7d \x7b" = none
    ∧ extract_and_parse_json "abc\x7bdef" = none := by
  refine ⟨?_, rfl, rfl⟩
  intro text
  cases h : extract_and_parse_json text with
  | none => exact Or.inl rfl
  | some v => exact Or.inr ⟨v, rfl⟩

/-- C5: on a non-empty candidate list the geocoder takes the FIRST candidate
(`data[0]`, no re-ranking) and sets `confidence` to the length of the
candidate list. -/
theorem geocode_selects_first_candidate
    (best : NominatimPlace) (rest : List NominatimPlace) :
    geocode_address (some (best :: rest)) =
      some { display_name := best.display_name.getD ""
             latitude := best.lat.getD 0
             longitude := best.lon.getD 0
             address_components := some (best.address.getD [])
             osm_id := some (best.osm_id.getD "")
             confidence := (best :: rest).length } := rfl

/-- C6: whenever the geocoding client yields no candidate (request failure or
empty result), the orchestrator's geo-result is the fixed fallback:
confidence 0, latitude -6.2, longitude 106.8, display name synthesized from
the entered address. -/
theorem geolocation_fallback_fixed (address : String) :
    process_geolocation address none =
      { display_name := "Area " ++ address ++ " (estimasi)"
        latitude := -6.2
        longitude := 106.8
        address_components := none
        osm_id := none
        confidence := 0 } ∧
    process_geolocation address (some []) =
      { display_name := "Area " ++ address ++ " (estimasi)"
        latitude := -6.2
        longitude := 106.8
        address_components := none
        osm_id := none
        confidence := 0 } := ⟨rfl, rfl⟩

/-- C7: with no NewsAPI key the orchestrator never attempts the search-API
producer and always runs the feed producer; with a key the search-API
producer is tried first and the feed producer runs exactly when its result is
empty; the final list is always one producer's output, never a merge. -/
theorem news_selection_policy :
    (∀ (apiResp : NewsApiHttp) (feeds : List FeedResult),
        gather_market_intelligence none apiResp feeds =
          (fetch_rss_feeds feeds 3, [NewsProducer.rss]))
    ∧ (∀ (k : String) (apiResp : NewsApiHttp) (feeds : List FeedResult),
        gather_market_intelligence (some k) apiResp feeds =
          if fetch_newsapi_data (some k) apiResp = []
          then (fetch_rss_feeds feeds 3, [NewsProducer.newsapi, NewsProducer.rss])
          else (fetch_newsapi_data (some k) apiResp, [NewsProducer.newsapi]))
    ∧ (∀ (key : Option String) (apiResp : NewsApiHttp) (feeds : List FeedResult),
        (gather_market_intelligence key apiResp feeds).1 =
            fetch_newsapi_data key apiResp ∨
        (gather_market_intelligence key apiResp feeds).1 = fetch_rss_feeds feeds 3) := by
  refine ⟨?_, ?_, ?_⟩
  · intro apiResp feeds
    unfold gather_market_intelligence
    simp
  · intro k apiResp feeds
    unfold gather_market_intelligence
    by_cases h : fetch_newsapi_data (some k) apiResp = []
    · simp [h]
    · simp [h]
  · intro key apiResp feeds
    unfold gather_market_intelligence
    cases key with
    | none => right; simp
    | some k =>
      by_cases h : fetch_newsapi_data (some k) apiResp = []
      · right; simp [h]
      · left; simp [h]

/-- C2 as stated is false: the repair regexes also fire inside string
literals.  On the span `\x7b"a": ",\x7d", "b": 1,\x7d` — an object valid
except for its single trailing comma — the extractor corrupts the string
value and returns `\x7b"a": "\x7d", "b": 1\x7d`, not the object obtained by
deleting the trailing comma. -/
theorem extract_trailing_comma_corrupts_string :
    extract_and_parse_json "\x7b\"a\": \",\x7d\", \"b\": 1,\x7d" =
      some (PyJson.obj [("a", PyJson.str "\x7d"), ("b", PyJson.int 1)]) ∧
    json_loads ("\x7b\"a\": \",\x7d\", \"b\": 1\x7d".data) =
      some (PyJson.obj [("a", PyJson.str ",\x7d"), ("b", PyJson.int 1)]) ∧
    PyJson.obj [("a", PyJson.str "\x7d"), ("b", PyJson.int 1)] ≠
      PyJson.obj [("a", PyJson.str ",\x7d"), ("b", PyJson.int 1)] := by
  refine ⟨rfl, rfl, ?_⟩
  intro hcontra
  injection hcontra with h1
  injection h1 with h2 _
  injection h2 with _ h3
  injection h3 with h4
  exact absurd h4 (by decide)

/-- C2 (amended): if the candidate span has a single trailing comma before
`close ∈ \x7b'\x7d', ']'\x7d` (span `= A ++ "," ++ W ++ close ++ B` with `W`
whitespace), the span itself is not valid JSON, the three repair patterns
match nowhere else in the span, and the span without the comma (with or
without the whitespace that followed it) parses to `v`, then the extractor
returns `v`. -/
theorem extract_repairs_isolated_trailing_comma
    (text : String) (A W B : List Char) (close : Char) (v : PyJson)
    (hclose : close = '}' ∨ close = ']')
    (hspan : jsonCandidate text.data = some (A ++ ',' :: (W ++ close :: B)))
    (hW : W.all isReWs = true)
    (hdirect : json_loads (A ++ ',' :: (W ++ close :: B)) = none)
    (hbrace : close = '}' →
      noCCGo '}' false (A ++ [',']) = true ∧ noCCGo '}' false B = true ∧
      noCCGo ']' false (A ++ close :: B) = true)
    (hbracket : close = ']' →
      noCCGo '}' false (A ++ ',' :: (W ++ close :: B)) = true ∧
      noCCGo ']' false (A ++ [',']) = true ∧ noCCGo ']' false B = true)
    (hqn : noQNGo false false (A ++ close :: B) = true)
    (hnocomma : json_loads (A ++ (W ++ close :: B)) = some v)
    (hparse : json_loads (A ++ close :: B) = some v) :
    extract_and_parse_json text = some v := by
  have hrep : subQuoteNl (subCommaClose ']'
      (subCommaClose '}' (A ++ ',' :: (W ++ close :: B)))) = A ++ close :: B := by
    rcases hclose with rfl | rfl
    · obtain ⟨h1, h2, h3⟩ := hbrace rfl
      have e1 : subCommaClose '}' (A ++ ',' :: (W ++ '}' :: B)) = A ++ '}' :: B := by
        unfold subCommaClose
        rw [subCloseGo_trailing '}' (by decide) (by decide) A [] W B
          (by simpa using h1) hW]
        rw [subCloseGo_id '}' B [] (by simpa using h2)]
        simp
      rw [e1]
      have e2 : subCommaClose ']' (A ++ '}' :: B) = A ++ '}' :: B := by
        unfold subCommaClose
        rw [subCloseGo_id ']' (A ++ '}' :: B) [] (by simpa using h3)]
        simp
      rw [e2]
      unfold subQuoteNl
      rw [subQNGo_id (A ++ '}' :: B) [] false (by simpa using hqn)]
      simp
    · obtain ⟨h1, h2, h3⟩ := hbracket rfl
      have e1 : subCommaClose '}' (A ++ ',' :: (W ++ ']' :: B)) =
          A ++ ',' :: (W ++ ']' :: B) := by
        unfold subCommaClose
        rw [subCloseGo_id '}' (A ++ ',' :: (W ++ ']' :: B)) [] (by simpa using h1)]
        simp
      rw [e1]
      have e2 : subCommaClose ']' (A ++ ',' :: (W ++ ']' :: B)) = A ++ ']' :: B := by
        unfold subCommaClose
        rw [subCloseGo_trailing ']' (by decide) (by decide) A [] W B
          (by simpa using h2) hW]
        rw [subCloseGo_id ']' B [] (by simpa using h3)]
        simp
      rw [e2]
      unfold subQuoteNl
      rw [subQNGo_id (A ++ ']' :: B) [] false (by simpa using hqn)]
      simp
  unfold extract_and_parse_json
  rw [hspan]
  simp only [hdirect, hrep, hparse]

theorem extract_repairs_isolated_trailing_comma_witness :
    extract_and_parse_json
        "Here is the result:\n\x7b\"trust_score\": 72, \"risk_analysis\": \x7b\"flood\": 10,\x7d\x7d\nThanks." =
      some (PyJson.obj [("trust_score", PyJson.int 72),
        ("risk_analysis", PyJson.obj [("flood", PyJson.int 10)])]) :=
  extract_repairs_isolated_trailing_comma
    "Here is the result:\n\x7b\"trust_score\": 72, \"risk_analysis\": \x7b\"flood\": 10,\x7d\x7d\nThanks."
    ("\x7b\"trust_score\": 72, \"risk_analysis\": \x7b\"flood\": 10".data)
    [] ("\x7d".data) '}'
    (PyJson.obj [("trust_score", PyJson.int 72),
      ("risk_analysis", PyJson.obj [("flood", PyJson.int 10)])])
    (Or.inl rfl)
    (by decide)
    rfl
    rfl
    (fun _ => ⟨by decide, by decide, by decide⟩)
    (fun hcontra => absurd hcontra (by decide))
    (by decide)
    rfl
    rfl

/-- C4 as stated is false: the city table is scanned in dict insertion order
with `"jakarta"` FIRST, so a display name containing both "tangerang selatan"
and "jakarta" gets the Jakarta description, not the Tangerang Selatan one. -/
theorem city_context_jakarta_shadowing :
    pyIn "tangerang selatan"
        (pyLower "Serpong, Tangerang Selatan, dekat Jakarta") = true ∧
    extract_city_context "Serpong, Tangerang Selatan, dekat Jakarta" =
      "DKI Jakarta - Pusat bisnis dan pemerintahan" ∧
    ("DKI Jakarta - Pusat bisnis dan pemerintahan" : String) ≠
      "Tangerang Selatan - Area berkembang dengan infrastruktur modern" :=
  ⟨by decide, by decide, by decide⟩

/-- C4 (amended): the lookup scans the lower-cased display name against the
fixed six-entry table in insertion order (`jakarta` first, then
`tangerang selatan` before its substring `tangerang`, then `bekasi`, `bogor`,
`depok`) and falls through to the generic Jabodetabek description; every
display name containing "tangerang selatan" but not "jakarta" gets the
Tangerang Selatan description, not the Tangerang one. -/
theorem city_context_first_match :
    (∀ name : String,
        pyIn "tangerang selatan" (pyLower name) = true →
        pyIn "jakarta" (pyLower name) = false →
        extract_city_context name =
          "Tangerang Selatan - Area berkembang dengan infrastruktur modern")
    ∧ (∀ name : String,
        pyIn "jakarta" (pyLower name) = false →
        pyIn "tangerang selatan" (pyLower name) = false →
        pyIn "tangerang" (pyLower name) = false →
        pyIn "bekasi" (pyLower name) = false →
        pyIn "bogor" (pyLower name) = false →
        pyIn "depok" (pyLower name) = false →
        extract_city_context name =
          "Area Jabodetabek - Kawasan metropolitan Jakarta") := by
  constructor
  · intro name h1 h2
    unfold extract_city_context
    simp [h1, h2]
  · intro name h1 h2 h3 h4 h5 h6
    unfold extract_city_context
    simp [h1, h2, h3, h4, h5, h6]

theorem city_context_first_match_witness :
    extract_city_context "BSD City, Tangerang Selatan" =
      "Tangerang Selatan - Area berkembang dengan infrastruktur modern" ∧
    extract_city_context "Cibubur" =
      "Area Jabodetabek - Kawasan metropolitan Jakarta" :=
  ⟨city_context_first_match.1 "BSD City, Tangerang Selatan" (by decide) (by decide),
   city_context_first_match.2 "Cibubur" (by decide) (by decide) (by decide)
     (by decide) (by decide) (by decide)⟩

/-- C8 as stated is false: with no API key configured `call_gemini_api`
RAISES `RuntimeError` (line 331) instead of returning `None`; moreover an
unexpectedly-shaped response field (here `candidates` being a number) raises
an uncaught `TypeError`. -/
theorem call_gemini_raises_on_missing_key :
    call_gemini_api none (AiHttp.ok (PyJson.obj [])) =
      CallResult.raised PyExc.runtimeError ∧
    call_gemini_api (some "key")
        (AiHttp.ok (PyJson.obj [("candidates", PyJson.int 3)])) =
      CallResult.raised PyExc.typeError ∧
    CallResult.raised PyExc.runtimeError ≠ CallResult.returned none := by
  refine ⟨rfl, rfl, ?_⟩
  intro hcontra
  exact CallResult.noConfusion hcontra

/-- C8 (amended): `call_gemini_api` returns `None` — rather than raising — on
any network/HTTP error, on a provider payload containing `"error"`, and when
the response-field chain fails with `KeyError`/`IndexError`; a missing API
key instead raises `RuntimeError`. -/
theorem call_gemini_failure_modes :
    (∀ http : AiHttp,
        call_gemini_api none http = CallResult.raised PyExc.runtimeError)
    ∧ (∀ k : String,
        call_gemini_api (some k) AiHttp.netError = CallResult.returned none)
    ∧ (∀ (k : String) (data : PyJson),
        pyContainsStr data "error" = Except.ok true →
        call_gemini_api (some k) (AiHttp.ok data) = CallResult.returned none)
    ∧ (∀ (k : String) (data : PyJson) (e : PyExc),
        pyContainsStr data "error" = Except.ok false →
        extractText data = Except.error e →
        (e = PyExc.keyError ∨ e = PyExc.indexError) →
        call_gemini_api (some k) (AiHttp.ok data) = CallResult.returned none) := by
  refine ⟨fun http => rfl, fun k => rfl, ?_, ?_⟩
  · intro k data h
    unfold call_gemini_api
    simp only [h]
  · intro k data e h1 h2 he
    unfold call_gemini_api
    rcases he with rfl | rfl <;> simp only [h1, h2]

theorem call_gemini_failure_modes_witness :
    call_gemini_api (some "key") (AiHttp.ok (PyJson.obj [])) =
      CallResult.returned none ∧
    call_gemini_api (some "key")
        (AiHttp.ok (PyJson.obj [("error", PyJson.str "quota")])) =
      CallResult.returned none :=
  ⟨call_gemini_failure_modes.2.2.2 "key" (PyJson.obj []) PyExc.keyError
     rfl rfl (Or.inl rfl),
   call_gemini_failure_modes.2.2.1 "key"
     (PyJson.obj [("error", PyJson.str "quota")]) rfl⟩

theorem pyTrunc_length (s : String) (n : Nat) : (pyTrunc s n).length ≤ n := by
  have h : (pyTrunc s n).length = min n s.data.length := by
    cases s
    simp [pyTrunc, String.length]
  omega

theorem rss_foldl_bounded :
    ∀ (feeds : List FeedResult) (limit : Nat) (acc : List NewsArticle),
      (∀ a ∈ acc, a.description.length ≤ 200) →
      ∀ a ∈ feeds.foldl
          (fun all_articles f =>
            match f with
            | .err => all_articles
            | .ok t es => all_articles ++ (es.take limit).map (mkRssArticle t))
          acc,
        a.description.length ≤ 200 := by
  intro feeds
  induction feeds with
  | nil => intro limit acc hacc a ha; exact hacc a ha
  | cons f fs ih =>
    intro limit acc hacc a ha
    rw [List.foldl_cons] at ha
    cases f with
    | err => exact ih limit acc hacc a ha
    | ok t es =>
      refine ih limit _ ?_ a ha
      intro b hb
      rw [List.mem_append] at hb
      rcases hb with hb | hb
      · exact hacc b hb
      · obtain ⟨e, _, rfl⟩ := List.mem_map.mp hb
        exact pyTrunc_length _ 200

/-- C9: every article either producer emits is the unified `NewsArticle`
record (title, url, published string, source name, description), and its
description — truncated with `[:200]` — has length at most 200. -/
theorem news_description_bounded :
    (∀ (key : Option String) (resp : NewsApiHttp) (a : NewsArticle),
        a ∈ fetch_newsapi_data key resp → a.description.length ≤ 200)
    ∧ (∀ (feeds : List FeedResult) (limit : Nat) (a : NewsArticle),
        a ∈ fetch_rss_feeds feeds limit → a.description.length ≤ 200) := by
  constructor
  · intro key resp a ha
    cases key with
    | none => simp [fetch_newsapi_data] at ha
    | some k =>
      cases resp with
      | netError => simp [fetch_newsapi_data] at ha
      | payload status msg articles =>
        by_cases h : status = some "error"
        · simp [fetch_newsapi_data, h] at ha
        · simp [fetch_newsapi_data, h] at ha
          obtain ⟨r, _, rfl⟩ := ha
          exact pyTrunc_length _ 200
  · intro feeds limit a ha
    exact rss_foldl_bounded feeds limit [] (by simp) a ha

theorem news_description_bounded_witness :
    (NewsArticle.mk "t" "u" "p" "s" "d").description.length ≤ 200 :=
  news_description_bounded.1 (some "key")
    (NewsApiHttp.payload (some "ok") none
      [RawApiArticle.mk (some "t") (some "u") (some "p") (some "s") (some "d")])
    (NewsArticle.mk "t" "u" "p" "s" "d")
    (by decide)

theorem extract_total_function_witness :
    extract_and_parse_json "x" = none ∨
      ∃ v, extract_and_parse_json "x" = some v :=
  extract_total_function.1 "x"

theorem geocode_selects_first_candidate_witness :
    geocode_address (some
        [NominatimPlace.mk (some "BSD City") (some (-63/10)) (some (1067/10))
           (some []) (some "123"),
         NominatimPlace.mk none none none none none]) =
      some { display_name := "BSD City"
             latitude := -63/10
             longitude := 1067/10
             address_components := some []
             osm_id := some "123"
             confidence := 2 } :=
  geocode_selects_first_candidate
    (NominatimPlace.mk (some "BSD City") (some (-63/10)) (some (1067/10))
      (some []) (some "123"))
    [NominatimPlace.mk none none none none none]

theorem geolocation_fallback_fixed_witness :
    process_geolocation "BSD City" none =
      { display_name := "Area " ++ "BSD City" ++ " (estimasi)"
        latitude := -6.2
        longitude := 106.8
        address_components := none
        osm_id := none
        confidence := 0 } ∧
    process_geolocation "BSD City" (some []) =
      { display_name := "Area " ++ "BSD City" ++ " (estimasi)"
        latitude := -6.2
        longitude := 106.8
        address_components := none
        osm_id := none
        confidence := 0 } :=
  geolocation_fallback_fixed "BSD City"

theorem news_selection_policy_witness :
    gather_market_intelligence none NewsApiHttp.netError [] =
      (fetch_rss_feeds [] 3, [NewsProducer.rss]) :=
  news_selection_policy.1 NewsApiHttp.netError []
